import Mathlib

/-!
Shallow embedding of `pyblish-mindbender`:
`src/mindbender/maya/pipeline.py` and `src/pyblish_starter/maya/cache.py`.

The Maya host (`maya.cmds`, `maya.mel`) is modelled as an explicit scene
state; exceptions become `Except` values carrying the scene at the point
of the raise, so that "the scene is unchanged on this error" is a
statement about the returned state.  The `mindbender.api` and
`mindbender.maya.lib` modules are not part of the given sources; the few
registry and attribute helpers the pipeline uses from them are modelled
from the spec and marked as such in their doc comments.
-/

set_option autoImplicit false

namespace Mindbender

/-! ## Python value semantics -/

/-- A Python value as it occurs in the module's data records: a string,
an integer, or a float.  Floats are only ever produced by the host
(`playbackOptions`) and stringified; they are carried by their `str()`
rendering, never computed with. -/
inductive PyVal where
  | str (s : String)
  | int (n : Int)
  | float (repr : String)
  deriving DecidableEq, Repr

/-- Python `str(value)`. -/
def pyToString : PyVal → String
  | .str s => s
  | .int n => toString n
  | .float r => r

/-- Python truthiness (`if not value`): empty strings and zero are falsy. -/
def pyTruthy : PyVal → Bool
  | .str s => s ≠ ""
  | .int n => n ≠ 0
  | .float r => ¬(r = "0.0" ∨ r = "-0.0" ∨ r = "0")

/-- The Python exceptions the embedded code can raise. -/
inductive Err where
  | indexError
  | nameError
  | keyError
  | valueError
  | typeError
  | assertionError
  | unboundLocalError
  | runtimeError
  | validationError
  deriving DecidableEq, Repr

/-- Results of embedded computations are compared in witnesses and
counterexamples, so equality of `Except` values must be decidable. -/
instance exceptDecEq {ε α : Type} [DecidableEq ε] [DecidableEq α] :
    DecidableEq (Except ε α) := fun a b =>
  match a, b with
  | .error e, .error f =>
    if h : e = f then .isTrue (by rw [h]) else .isFalse (by simp [h])
  | .ok x, .ok y =>
    if h : x = y then .isTrue (by rw [h]) else .isFalse (by simp [h])
  | .error _, .ok _ => .isFalse (by simp)
  | .ok _, .error _ => .isFalse (by simp)

/-- Read a `{key}` field of a format string: the characters up to the
closing brace.  `none` when the brace is never closed. -/
def takeKey : List Char → Option (String × List Char)
  | [] => none
  | c :: rest =>
    if c = '}' then some ("", rest)
    else (takeKey rest).map (fun p => (String.mk [c] ++ p.1, p.2))

/-- Worker for `pyFormat`, fuelled by the length of the string (each
step consumes at least one character). -/
def pyFormatGo (env : List (String × String)) : Nat → List Char → Except Err String
  | _, [] => .ok ""
  | 0, _ :: _ => .error .valueError
  | fuel + 1, c :: cs =>
    if c = '{' then
      match cs with
      | '{' :: rest => (pyFormatGo env fuel rest).map (fun t => "\x7b" ++ t)
      | _ =>
        match takeKey cs with
        | none => .error .valueError
        | some (k, rest) =>
          match env.lookup k with
          | none => .error .keyError
          | some v => (pyFormatGo env fuel rest).map (fun t => v ++ t)
    else if c = '}' then
      match cs with
      | '}' :: rest => (pyFormatGo env fuel rest).map (fun t => "\x7d" ++ t)
      | _ => .error .valueError
    else
      (pyFormatGo env fuel cs).map (fun t => String.mk [c] ++ t)

/-- Python `template.format(**env)` restricted to the named, spec-less
fields this module uses (`{name}`, `{family}`, `{dirname}`, `{format}`):
an unknown field raises `KeyError`, a stray brace raises `ValueError`. -/
def pyFormat (env : List (String × String)) (s : String) : Except Err String :=
  pyFormatGo env (s.length + 1) s.toList

/-- Python list subscription `xs[i]` with negative-index wrap-around:
`some` the element, `none` for `IndexError`. -/
def pyListGet {α : Type} (xs : List α) (i : Int) : Option α :=
  let j := if i < 0 then i + xs.length else i
  if 0 ≤ j ∧ j < xs.length then xs.get? j.toNat else none

/-- Insert into a Python dict rendered as an association list: a
repeated key keeps its first position and takes the last value. -/
def pyDictInsert (d : List (String × PyVal)) (k : String) (v : PyVal) :
    List (String × PyVal) :=
  if d.any (fun kv => kv.1 = k) then
    d.map (fun kv => if kv.1 = k then (k, v) else kv)
  else d ++ [(k, v)]

/-- Python `dict((i["key"], i["value"]) for i in data)`. -/
def pyDictOf (data : List (String × PyVal)) : List (String × PyVal) :=
  data.foldl (fun d kv => pyDictInsert d kv.1 kv.2) []

/-! ## The Maya scene model -/

/-- A scene attribute value.  The pipeline only ever writes string
attributes; the host supports other attribute types (represented here by
`double`), which is what makes "all written metadata is string-valued" a
contentful statement. -/
inductive Attr where
  | string (s : String)
  | double (n : Int)
  deriving DecidableEq, Repr

/-- A Maya scene node: short name, node type, optional parent (by
name), set members (for `objectSet` nodes), user attributes, and the
reference node that brought it in, if any. -/
structure Node where
  name : String
  nodeType : String
  parent : Option String
  members : List String
  attrs : List (String × Attr)
  refNode : Option String
  deriving DecidableEq, Repr

/-- The Maya-side state: the scene graph plus the host facilities the
module touches (selection, loaded plug-ins, emitted warnings, evaluated
MEL, and the current animation range for `playbackOptions`). -/
structure Scene where
  nodes : List Node
  selection : List String
  pluginsLoaded : List String
  warnings : List String
  melLog : List String
  animationStartTime : PyVal
  animationEndTime : PyVal
  deriving DecidableEq, Repr

/-- `cmds.objExists`. -/
def objExists (st : Scene) (n : String) : Bool :=
  st.nodes.any (fun nd => nd.name = n)

/-- Maya renames a new node whose requested name is taken by appending
the first free numeric suffix.  Fuelled by the scene size. -/
def mayaUniquifyGo (st : Scene) (base : String) : Nat → Nat → String
  | 0, k => base ++ toString k
  | fuel + 1, k =>
    let c := base ++ toString k
    if objExists st c then mayaUniquifyGo st base fuel (k + 1) else c

def mayaUniquify (st : Scene) (base : String) : String :=
  if objExists st base then mayaUniquifyGo st base (st.nodes.length + 1) 1
  else base

/-- Update every node carrying the given (unique, per Maya's invariant)
name. -/
def updateNode (st : Scene) (n : String) (f : Node → Node) : Scene :=
  { st with nodes := st.nodes.map (fun nd => if nd.name = n then f nd else nd) }

/-- `cmds.addAttr(node, longName=k, dataType="string")`: declares an
empty string attribute. -/
def cmds_addAttr (st : Scene) (n k : String) : Scene :=
  updateNode st n (fun nd => { nd with attrs := nd.attrs ++ [(k, .string "")] })

/-- `cmds.setAttr(node + "." + k, v, type="string")`: stores the value
on the declared string attribute. -/
def cmds_setAttrString (st : Scene) (n k : String) (v : PyVal) : Scene :=
  updateNode st n (fun nd =>
    { nd with attrs := nd.attrs.map (fun kv =>
        if kv.1 = k then (k, .string (pyToString v)) else kv) })

/-- `cmds.ls(nodes, assemblies=True)`: of the given names, those that
are top-level transform nodes of the scene. -/
def cmds_ls_assemblies (st : Scene) (names : List String) : List String :=
  (st.nodes.filter (fun nd =>
    names.contains nd.name && nd.parent = none && nd.nodeType = "transform")).map
    (fun nd => nd.name)

/-- `cmds.group(assemblies, name=name)`: parents the assemblies under a
fresh transform node.  With nothing to group Maya raises a
`RuntimeError`. -/
def cmds_group (st : Scene) (assemblies : List String) (name : String) :
    Except (Err × Scene) (Scene × String) :=
  if assemblies.isEmpty then .error (.runtimeError, st)
  else
    let gname := mayaUniquify st name
    let reparented := st.nodes.map (fun nd =>
      if assemblies.contains nd.name then { nd with parent := some gname } else nd)
    let gnode : Node :=
      { name := gname, nodeType := "transform", parent := none,
        members := [], attrs := [], refNode := none }
    .ok ({ st with nodes := reparented ++ [gnode] }, gname)

/-- `cmds.sets(name=n)`: creates an `objectSet` holding the current
selection. -/
def cmds_sets (st : Scene) (n : String) : Scene × String :=
  let sname := mayaUniquify st n
  let snode : Node :=
    { name := sname, nodeType := "objectSet", parent := none,
      members := st.selection, attrs := [], refNode := none }
  ({ st with nodes := st.nodes ++ [snode] }, sname)

/-- `cmds.select(x, noExpand=True)`: selects the object itself. -/
def cmds_select_noExpand (st : Scene) (n : String) : Scene :=
  { st with selection := [n] }

/-- `cmds.select(x, noExpand=False)`: selecting a set selects its
members. -/
def cmds_select_expand (st : Scene) (n : String) : Scene :=
  match st.nodes.find? (fun nd => nd.name = n) with
  | some nd =>
    if nd.nodeType = "objectSet" then { st with selection := nd.members }
    else { st with selection := [n] }
  | none => { st with selection := [n] }

/-- `cmds.namespaceInfo(ns, listNamespace=True)`: the names under the
namespace prefix. -/
def cmds_namespaceInfo (st : Scene) (ns : String) : List String :=
  (st.nodes.filter (fun nd => nd.name.startsWith ns)).map (fun nd => nd.name)

/-- `cmds.loadPlugin(p, quiet=True)`. -/
def cmds_loadPlugin (st : Scene) (p : String) : Scene :=
  if st.pluginsLoaded.contains p then st
  else { st with pluginsLoaded := st.pluginsLoaded ++ [p] }

/-- `cmds.warning(msg)`. -/
def cmds_warning (st : Scene) (msg : String) : Scene :=
  { st with warnings := st.warnings ++ [msg] }

/-- Worker for `longName`: walk the parent chain, fuelled by the scene
size. -/
def longNameGo (st : Scene) : Nat → String → String
  | 0, n => "|" ++ n
  | fuel + 1, n =>
    match st.nodes.find? (fun nd => nd.name = n) with
    | some nd =>
      match nd.parent with
      | some p => longNameGo st fuel p ++ "|" ++ n
      | none => "|" ++ n
    | none => "|" ++ n

/-- The long (full-path) name of a node, as `cmds.ls(long=True)`
returns it. -/
def longName (st : Scene) (nd : Node) : String :=
  longNameGo st st.nodes.length nd.name

/-- A node of a referenced file, before namespacing: name, type, parent
within the file, and set members. -/
structure ProtoNode where
  name : String
  nodeType : String
  parent : Option String
  members : List String
  deriving DecidableEq, Repr

/-- The world outside the scene: which files exist and what nodes they
create when referenced. -/
structure World where
  files : String → Option (List ProtoNode)

/-- `cmds.file(fname, namespace=ns, reference=True, returnNewNodes=True)`:
creates the file's nodes under the namespace together with a reference
node, and returns the new nodes' names.  A missing file is a host
`RuntimeError`. -/
def cmds_file (w : World) (st : Scene) (fname ns : String) :
    Except (Err × Scene) (Scene × List String) :=
  match w.files fname with
  | none => .error (.runtimeError, st)
  | some protos =>
    let rn := ns ++ "RN"
    let newNodes : List Node := protos.map (fun p =>
      { name := ns ++ ":" ++ p.name,
        nodeType := p.nodeType,
        parent := p.parent.map (fun q => ns ++ ":" ++ q),
        members := p.members.map (fun q => ns ++ ":" ++ q),
        attrs := [],
        refNode := some rn })
    let rnNode : Node :=
      { name := rn, nodeType := "reference", parent := none,
        members := [], attrs := [], refNode := none }
    .ok ({ st with nodes := st.nodes ++ newNodes ++ [rnNode] },
         newNodes.map (fun nd => nd.name))

/-- `cmds.referenceQuery(node, referenceNode=True)`. -/
def cmds_referenceQuery (st : Scene) (n : String) : Except (Err × Scene) String :=
  match st.nodes.find? (fun nd => nd.name = n) with
  | some nd =>
    match nd.refNode with
    | some r => .ok r
    | none => .error (.runtimeError, st)
  | none => .error (.runtimeError, st)

/-! ## The asset-management records and the api registries -/

/-- A `pyblish-mindbender:representation-1.0` record as the loaders use
it: a path template and a file format. -/
structure Representation where
  path : String
  format : String
  deriving DecidableEq, Repr

/-- A `pyblish-mindbender:version-1.0` record, with the fields
`containerise` and the loaders read (`comment` is read with
`.get("comment", "")`, hence optional). -/
structure Version where
  author : String
  time : String
  version : Int
  source : String
  comment : Option String
  path : String
  families : List String
  representations : List Representation
  deriving DecidableEq, Repr

/-- A `pyblish-mindbender:asset-1.0` record (only `name` is read). -/
structure Asset where
  name : String
  deriving DecidableEq, Repr

/-- A `pyblish-mindbender:subset-1.0` record. -/
structure Subset where
  schema : String
  name : String
  versions : List Version
  deriving DecidableEq, Repr

/-- Which of the module's loader callbacks a family registers. -/
inductive LoaderTag where
  | generic
  | rig
  | animation
  deriving DecidableEq, Repr

/-- Modelled from the spec: "Family: a named asset category with an
associated loader callback" — the record `api.register_family` stores
(name, help text, optional loader, optional per-family data). -/
structure Family where
  name : String
  help : String
  loader : Option LoaderTag
  fdata : List (String × PyVal)
  deriving DecidableEq, Repr

/-- Modelled from the spec: the small in-memory registries the
`mindbender.api` module keeps (root, default instance data, file
formats, families), which `install` fills and `load`/`create` walk. -/
structure ApiState where
  root : Option String
  ddata : List (String × PyVal)
  formats : List String
  families : List Family
  deriving Repr

/-- Modelled from the spec: `api.register_root`. -/
def register_root (api : ApiState) (r : String) : ApiState :=
  { api with root := some r }

/-- Modelled from the spec: `api.register_data` appends a default
instance data entry. -/
def register_data (api : ApiState) (k : String) (v : PyVal) : ApiState :=
  { api with ddata := api.ddata ++ [(k, v)] }

/-- Modelled from the spec: `api.register_format` appends a file
format. -/
def register_format (api : ApiState) (f : String) : ApiState :=
  { api with formats := api.formats ++ [f] }

/-- Modelled from the spec: `api.register_family` appends a family
record. -/
def register_family (api : ApiState) (f : Family) : ApiState :=
  { api with families := api.families ++ [f] }

/-- Modelled from the spec (the `mindbender.api` module is not among
the sources): `api.any_representation(version)` picks a representation
of the version in a registered format, raising `ValueError` when there
is none ("Raises: ... ValueError on no supported representation"). -/
def any_representation (api : ApiState) (v : Version) : Option Representation :=
  v.representations.find? (fun r => api.formats.contains r.format)

/-- The Python idiom at `create`'s head:

    for item in api.registered_families():
        if item["name"] == family:
            break

After the loop, `item` is the first matching family if any, else the
last element of the registry, else (empty registry) unbound. -/
def pyForBreakLookup : List Family → String → Option Family
  | [], _ => none
  | [f], _ => some f
  | f :: g :: rest, fam =>
    if f.name = fam then some f else pyForBreakLookup (g :: rest) fam

/-! ## containerise -/

/-- The `data` list built inside `containerise` (`self.__name__` is the
module name `mindbender.maya.pipeline`). -/
def containerData (version : Version) : List (String × PyVal) :=
  [("id", .str "pyblish.mindbender.container"),
   ("author", .str version.author),
   ("loader", .str "mindbender.maya.pipeline"),
   ("time", .str version.time),
   ("version", .int version.version),
   ("source", .str version.source),
   ("comment", .str (version.comment.getD ""))]

/-- The `for key, value in data:` loop of `containerise`: falsy values
are skipped (`if not value: continue`); the rest are declared and set as
string attributes on the container. -/
def containeriseAttrLoop (st : Scene) (container : String) :
    List (String × PyVal) → Scene
  | [] => st
  | (k, v) :: rest =>
    if pyTruthy v then
      containeriseAttrLoop
        (cmds_setAttrString (cmds_addAttr st container k) container k v)
        container rest
    else containeriseAttrLoop st container rest

/-- `containerise(name, nodes, version)` from
`src/mindbender/maya/pipeline.py`. -/
def containerise (name : String) (nodes : List String) (version : Version)
    (st : Scene) : Except (Err × Scene) (Scene × String) :=
  let assemblies := cmds_ls_assemblies st nodes
  match cmds_group st assemblies name with
  | .error e => .error e
  | .ok (st1, container) =>
    .ok (containeriseAttrLoop st1 container (containerData version), container)

/-! ## create -/

/-- Modelled from the spec (the `mindbender.maya.lib` module is not
among the sources): `lib.imprint(node, data)` writes each key/value of
the data — all string values by the time `create` calls it — as string
attributes on the node. -/
def lib_imprint (st : Scene) (n : String) (data : List (String × String)) : Scene :=
  updateNode st n (fun nd =>
    { nd with attrs := nd.attrs ++ data.map (fun kv => (kv.1, Attr.string kv.2)) })

/-- The template-resolution loop of `create`: every value is converted
with `str` and `.format(name=..., family=...)`; an unknown placeholder
is re-raised as `KeyError`. -/
def resolveLoop (env : List (String × String)) :
    List (String × PyVal) → Except Err (List (String × String))
  | [] => .ok []
  | (k, v) :: rest =>
    match pyFormat env (pyToString v) with
    | .error e => .error e
    | .ok s => (resolveLoop env rest).map (fun r => (k, s) :: r)

/-- The body of `create` after the family lookup has bound `item`
(the `assert item is not None` between the two cannot fire: the
registry holds records, never `None`). -/
def createAfterLookup (api : ApiState) (st : Scene) (name family : String)
    (item : Family) : Except (Err × Scene) (Scene × String) :=
  let data := pyDictOf (api.ddata ++ item.fdata)
  let inst0 := name ++ "_SET"
  if objExists st inst0 then .error (.nameError, st)
  else
    let (st1, inst) := cmds_sets st inst0
    match resolveLoop [("name", name), ("family", family)] data with
    | .error e => .error (e, st1)
    | .ok res =>
      let st2 := lib_imprint st1 inst res
      let st3 := cmds_select_noExpand st2 inst
      .ok (st3, inst)

/-- `create(name, family)` from `src/mindbender/maya/pipeline.py`.  An
empty registry leaves the loop variable `item` unbound and the
subsequent `assert` raises `UnboundLocalError` (a `NameError`). -/
def create (api : ApiState) (st : Scene) (name family : String) :
    Except (Err × Scene) (Scene × String) :=
  match pyForBreakLookup api.families family with
  | none => .error (.unboundLocalError, st)
  | some item => createAfterLookup api st name family item

/-! ## The family loaders -/

/-- Modelled from the spec (the `mindbender.maya.lib` module is not
among the sources): `lib.unique_name(base)` derives a fresh scene name
from the asset name by appending the first free zero-padded counter. -/
def lib_unique_name_go (st : Scene) (base : String) : Nat → Nat → String
  | 0, k => base ++ (if k < 10 then "0" else "") ++ toString k
  | fuel + 1, k =>
    let c := base ++ (if k < 10 then "0" else "") ++ toString k
    if objExists st c then lib_unique_name_go st base fuel (k + 1) else c

def lib_unique_name (st : Scene) (base : String) : String :=
  lib_unique_name_go st base (st.nodes.length + 1) 1

/-- `_loader_generic` from `src/mindbender/maya/pipeline.py`: resolve
the representation's file path, reference it under a fresh namespace,
containerise the new nodes, query the reference node (the trailing
`namespaceInfo` rebinding of `nodes` is dead code). -/
def loader_generic (w : World) (api : ApiState) (asset : Asset) (subset : Subset)
    (version : Version) (representation : Representation) (st : Scene) :
    Except (Err × Scene) (Scene × String) :=
  match pyFormat [("dirname", version.path), ("format", representation.format)]
      representation.path with
  | .error e => .error (e, st)
  | .ok fname =>
    let name := lib_unique_name st asset.name
    match cmds_file w st fname (name ++ "_") with
    | .error e => .error e
    | .ok (st1, nodes) =>
      match containerise name nodes version st1 with
      | .error e => .error e
      | .ok (st2, _container) =>
        match nodes with
        | [] => .error (.indexError, st2)
        | n0 :: _ =>
          match cmds_referenceQuery st2 n0 with
          | .error e => .error e
          | .ok reference =>
            let _nodes2 := cmds_namespaceInfo st2 (name ++ "_:")
            .ok (st2, reference)

/-- `_loader_rig` from `src/mindbender/maya/pipeline.py`: the generic
sequence, then find the rig's `out_SET` in the new namespace, select its
contents, and create a `mindbender.animation` instance from them. -/
def loader_rig (w : World) (api : ApiState) (asset : Asset) (subset : Subset)
    (version : Version) (representation : Representation) (st : Scene) :
    Except (Err × Scene) (Scene × String) :=
  match pyFormat [("dirname", version.path), ("format", representation.format)]
      representation.path with
  | .error e => .error (e, st)
  | .ok fname =>
    let name := lib_unique_name st asset.name
    match cmds_file w st fname (name ++ "_") with
    | .error e => .error e
    | .ok (st1, nodes) =>
      match containerise name nodes version st1 with
      | .error e => .error e
      | .ok (st2, _container) =>
        match nodes with
        | [] => .error (.indexError, st2)
        | n0 :: _ =>
          match cmds_referenceQuery st2 n0 with
          | .error e => .error e
          | .ok reference =>
            let nodes2 := cmds_namespaceInfo st2 (name ++ "_:")
            match nodes2.find? (fun n => n.endsWith "out_SET") with
            | none => .error (.assertionError, st2)
            | some output =>
              let st3 := cmds_select_expand st2 output
              match create api st3 name "mindbender.animation" with
              | .error e => .error e
              | .ok (st4, _inst) => .ok (st4, reference)

/-- `_loader_animation` from `src/mindbender/maya/pipeline.py`: loads
the `AbcImport.mll` plug-in first, names the container after the subset,
warns when that name already exists, then runs the same
reference/containerise/query sequence. -/
def loader_animation (w : World) (api : ApiState) (asset : Asset) (subset : Subset)
    (version : Version) (representation : Representation) (st : Scene) :
    Except (Err × Scene) (Scene × String) :=
  let st0 := cmds_loadPlugin st "AbcImport.mll"
  match pyFormat [("dirname", version.path), ("format", representation.format)]
      representation.path with
  | .error e => .error (e, st0)
  | .ok fname =>
    let name := subset.name
    let stw := if objExists st0 name then cmds_warning st0 "Asset already imported."
               else st0
    match cmds_file w stw fname (name ++ "_") with
    | .error e => .error e
    | .ok (st1, nodes) =>
      match containerise name nodes version st1 with
      | .error e => .error e
      | .ok (st2, _container) =>
        match nodes with
        | [] => .error (.indexError, st2)
        | n0 :: _ =>
          match cmds_referenceQuery st2 n0 with
          | .error e => .error e
          | .ok reference =>
            let _nodes2 := cmds_namespaceInfo st2 (name ++ "_:")
            .ok (st2, reference)

/-! ## The common loader skeleton (the spec's reading) -/

/-- Modelled from the spec: "near-identical functions differentiated
only by which post-processing step runs after a file reference is
created" — the shared sequence (resolve path, reference under a fresh
namespace, containerise, query the reference node), parameterised by the
container-name choice, a pre-reference step on the scene, and the
post-processing step. -/
def loader_core
    (chooseName : Scene → Asset → Subset → String)
    (preRef : String → Scene → Scene)
    (post : World → ApiState → String → List String → Scene →
      Except (Err × Scene) Scene)
    (w : World) (api : ApiState) (asset : Asset) (subset : Subset)
    (version : Version) (representation : Representation) (st : Scene) :
    Except (Err × Scene) (Scene × String) :=
  match pyFormat [("dirname", version.path), ("format", representation.format)]
      representation.path with
  | .error e => .error (e, st)
  | .ok fname =>
    let name := chooseName st asset subset
    let stw := preRef name st
    match cmds_file w stw fname (name ++ "_") with
    | .error e => .error e
    | .ok (st1, nodes) =>
      match containerise name nodes version st1 with
      | .error e => .error e
      | .ok (st2, _container) =>
        match nodes with
        | [] => .error (.indexError, st2)
        | n0 :: _ =>
          match cmds_referenceQuery st2 n0 with
          | .error e => .error e
          | .ok reference =>
            let nodes2 := cmds_namespaceInfo st2 (name ++ "_:")
            match post w api name nodes2 st2 with
            | .error e => .error e
            | .ok st3 => .ok (st3, reference)

/-- The trivial pre-reference step (generic and rig loaders). -/
def preRefNone (_ : String) (st : Scene) : Scene := st

/-- The trivial post-processing step (generic and animation loaders). -/
def postNone (_ : World) (_ : ApiState) (_ : String) (_ : List String)
    (st : Scene) : Except (Err × Scene) Scene := .ok st

/-- The rig loader's post-processing step: select the contents of the
namespace's `out_SET` and create a `mindbender.animation` instance. -/
def postRig (w : World) (api : ApiState) (name : String) (nodes2 : List String)
    (st : Scene) : Except (Err × Scene) Scene :=
  match nodes2.find? (fun n => n.endsWith "out_SET") with
  | none => .error (.assertionError, st)
  | some output =>
    let st3 := cmds_select_expand st output
    match create api st3 name "mindbender.animation" with
    | .error e => .error e
    | .ok (st4, _inst) => .ok st4

/-- The generic and rig loaders' name choice: a unique asset-derived
name. -/
def chooseUniqueName (st : Scene) (asset : Asset) (_ : Subset) : String :=
  lib_unique_name st asset.name

/-- The animation loader's name choice: the subset's name. -/
def chooseSubsetName (_ : Scene) (_ : Asset) (subset : Subset) : String :=
  subset.name

/-- The animation loader's pre-reference step: warn when the chosen
name already exists in the scene. -/
def preRefWarn (name : String) (st : Scene) : Scene :=
  if objExists st name then cmds_warning st "Asset already imported." else st

/-! ## load -/

/-- One loader dispatch performed by `load`'s family loop. -/
structure Invocation where
  tag : LoaderTag
  asset : Asset
  subset : Subset
  version : Version
  representation : Representation
  deriving DecidableEq, Repr

/-- Run the loader callback a family registered. -/
def runLoader (tag : LoaderTag) (w : World) (api : ApiState) (asset : Asset)
    (subset : Subset) (version : Version) (representation : Representation)
    (st : Scene) : Except (Err × Scene) (Scene × String) :=
  match tag with
  | .generic => loader_generic w api asset subset version representation st
  | .rig => loader_rig w api asset subset version representation st
  | .animation => loader_animation w api asset subset version representation st

/-- `load`'s family loop: for each registered family whose name occurs
in the selected version's families, invoke its loader — or the generic
loader when none is registered (`family["loader"] or _loader_generic`).
The returned list records the dispatches made. -/
def loadLoop (w : World) (api : ApiState) (asset : Asset) (subset : Subset)
    (version : Version) (representation : Representation) :
    List Family → Scene → List Invocation →
    Except (Err × Scene) (Scene × List Invocation)
  | [], st, acc => .ok (st, acc)
  | f :: rest, st, acc =>
    if version.families.contains f.name then
      match runLoader (f.loader.getD .generic) w api asset subset version
          representation st with
      | .error e => .error e
      | .ok (st', _) =>
        loadLoop w api asset subset version representation rest st'
          (acc ++ [⟨f.loader.getD .generic, asset, subset, version, representation⟩])
    else loadLoop w api asset subset version representation rest st acc

/-- The body of `load` once the version record has been selected:
default the representation (`api.any_representation`, `ValueError` when
none is supported), then dispatch the family loaders. -/
def loadAfterVersion (w : World) (api : ApiState) (asset : Asset)
    (subset : Subset) (version : Version) (representation : Option Representation)
    (st : Scene) : Except (Err × Scene) (Scene × List Invocation) :=
  let rep := match representation with
    | some r => some r
    | none => any_representation api version
  match rep with
  | none => .error (.valueError, st)
  | some r => loadLoop w api asset subset version r api.families st []

/-- `load(asset, subset, version=-1, representation=None)` from
`src/mindbender/maya/pipeline.py`: assert the subset schema, select the
version by Python list indexing (re-raising `IndexError`), then
dispatch. -/
def load (w : World) (api : ApiState) (asset : Asset) (subset : Subset)
    (version : Int) (representation : Option Representation) (st : Scene) :
    Except (Err × Scene) (Scene × List Invocation) :=
  if subset.schema ≠ "pyblish-mindbender:subset-1.0" then
    .error (.assertionError, st)
  else
    match pyListGet subset.versions version with
    | none => .error (.indexError, st)
    | some ver => loadAfterVersion w api asset subset ver representation st

/-! ## ls -/

/-- A record yielded by `ls`. -/
structure CRecord where
  schema : String
  path : String
  rdata : List (String × String)
  deriving DecidableEq, Repr

/-- `cmds.ls("*.id", type="transform", objectsOnly=True, long=True)`:
long names of the transform nodes carrying an `id` attribute. -/
def lsIdTransformNames (st : Scene) : List String :=
  (st.nodes.filter (fun nd =>
    nd.nodeType = "transform" && nd.attrs.any (fun kv => kv.1 = "id"))).map
    (longName st)

/-- Modelled from the spec (the `mindbender.maya.lib` module is not
among the sources): `lib.read(node)` reads the node's user-defined
string attributes back as a key/value mapping. -/
def lib_read (st : Scene) (lname : String) : List (String × String) :=
  match st.nodes.find? (fun nd => longName st nd = lname) with
  | some nd => nd.attrs.filterMap (fun kv =>
      match kv.2 with
      | .string s => some (kv.1, s)
      | .double _ => none)
  | none => []

/-- Modelled from the spec (the `api.schema` module is not among the
sources): validation against the `container` schema — the record must
carry the container schema identifier and the `id` key the listing
matched on. -/
def schema_validate_container (r : CRecord) : Bool :=
  r.schema = "pyblish-mindbender:container-1.0" &&
    (r.rdata.lookup "id").isSome

/-- The generator body of `ls`: records yielded before a validation
failure, and the failure if one occurred. -/
def lsLoop (st : Scene) : List String → List CRecord × Option Err
  | [] => ([], none)
  | c :: rest =>
    let d : CRecord :=
      { schema := "pyblish-mindbender:container-1.0",
        path := c,
        rdata := lib_read st c }
    if schema_validate_container d then
      (d :: (lsLoop st rest).1, (lsLoop st rest).2)
    else ([], some .validationError)

/-- `ls()` from `src/mindbender/maya/pipeline.py`. -/
def ls (st : Scene) : List CRecord × Option Err :=
  lsLoop st (lsIdTransformNames st)

/-! ## install -/

/-- `install()` from `src/mindbender/maya/pipeline.py`.  The Qt menu
installation and the missing-dependency dialog are host/UI plumbing with
no effect on the registries; a missing `pyblish_maya` setup ends in the
dialog's `RuntimeError`, a missing `PROJECTDIR` in an
`AssertionError`. -/
def install (pyblishMayaSetup : Bool) (projectdir : Option String)
    (st : Scene) (api : ApiState) : Except Err ApiState :=
  if !pyblishMayaSetup then .error .runtimeError
  else
    match projectdir with
    | none => .error .assertionError
    | some proj =>
      let api := register_root api proj
      let api := register_data api "id" (.str "pyblish.mindbender.instance")
      let api := register_data api "name" (.str "{name}")
      let api := register_data api "subset" (.str "{name}")
      let api := register_data api "family" (.str "{family}")
      let api := register_format api ".ma"
      let api := register_format api ".mb"
      let api := register_format api ".abc"
      let api := register_family api
        { name := "mindbender.model",
          help := "Polygonal geometry for animation",
          loader := some .generic, fdata := [] }
      let api := register_family api
        { name := "mindbender.rig",
          help := "Character rig",
          loader := some .rig, fdata := [] }
      let api := register_family api
        { name := "mindbender.animation",
          help := "Pointcache",
          loader := some .animation,
          fdata := [("startFrame", st.animationStartTime),
                    ("endFrame", st.animationEndTime)] }
      .ok api

/-! ## export_alembic (src/pyblish_starter/maya/cache.py) -/

/-- `export_alembic(nodes, file, frame_range=None, uv_write=True)` from
`src/pyblish_starter/maya/cache.py`.  The option list is built first;
`"%s %s" % frame_range` with `frame_range = None` raises `TypeError`
there, so the `if frame_range is None:` default two lines later is dead
and `mel.eval` is never reached on that path. -/
def export_alembic (nodes : List String) (file : String)
    (frame_range : Option (PyVal × PyVal)) (uv_write : Bool) (st : Scene) :
    Except (Err × Scene) (Scene × String) :=
  match frame_range with
  | none => .error (.typeError, st)
  | some (a, b) =>
    let options :=
      [("file", file), ("frameRange", pyToString a ++ " " ++ pyToString b)] ++
        nodes.map (fun mesh => ("root", mesh))
    let options := if uv_write then options ++ [("uvWrite", "")] else options
    let melArgs := options.map (fun kv => "-" ++ kv.1 ++ " " ++ kv.2)
    let melArgsString := " ".intercalate melArgs
    let melCmd := "AbcExport -j \x22" ++ melArgsString ++ "\x22"
    .ok ({ st with melLog := st.melLog ++ [melCmd] }, melCmd)

/-! ## Helper lemmas -/

/-- A nonempty registry always leaves the loop variable bound. -/
theorem pyForBreakLookup_of_ne_nil (fams : List Family) (fam : String)
    (h : fams ≠ []) : ∃ item, pyForBreakLookup fams fam = some item := by
  induction fams with
  | nil => exact absurd rfl h
  | cons f rest ih =>
    cases rest with
    | nil => exact ⟨f, rfl⟩
    | cons g rest2 =>
      rw [pyForBreakLookup]
      by_cases hf : f.name = fam
      · exact ⟨f, by simp [hf]⟩
      · obtain ⟨item, hit⟩ := ih (by simp)
        exact ⟨item, by simp [hf, hit]⟩

/-- With no matching family, the loop runs to completion and leaves the
last element bound. -/
theorem pyForBreakLookup_no_match (fams : List Family) (fam : String)
    (h : fams ≠ []) (hno : fam ∉ fams.map (fun f => f.name)) :
    pyForBreakLookup fams fam = some (fams.getLast h) := by
  induction fams with
  | nil => exact absurd rfl h
  | cons f rest ih =>
    cases rest with
    | nil => simp [pyForBreakLookup, List.getLast]
    | cons g rest2 =>
      have hf : ¬f.name = fam := by
        intro hc
        exact hno (by simp [hc])
      rw [pyForBreakLookup, if_neg hf]
      rw [ih (by simp) (by intro hc; exact hno (by simpa using Or.inr hc))]
      simp [List.getLast_cons]

/-- Python `xs[-1]` on a nonempty list is the last element. -/
theorem pyListGet_neg_one {α : Type} (xs : List α) (h : xs ≠ []) :
    pyListGet xs (-1) = some (xs.getLast h) := by
  have hlen : 0 < xs.length := List.length_pos.mpr h
  unfold pyListGet
  have hcond : (0 : Int) ≤ -1 + xs.length ∧ (-1 : Int) + xs.length < xs.length := by
    omega
  simp only [show ((-1 : Int) < 0) = True by simp, if_true]
  rw [if_pos hcond]
  have htn : ((-1 : Int) + xs.length).toNat = xs.length - 1 := by omega
  rw [htn, List.getLast_eq_get xs h, List.get?_eq_get]

/-! ## C9 -/

/-- C9: `export_alembic` with the default `frame_range = None` raises
(`"%s %s" % None` is a `TypeError`) while the option list is being
built: the returned state is the input state, so the animation-range
default was never assigned and no MEL command was evaluated. -/
theorem export_alembic_none_frame_range_raises (nodes : List String)
    (file : String) (uv_write : Bool) (st : Scene) :
    export_alembic nodes file none uv_write st = .error (.typeError, st) := rfl

/-! ## C5 -/

/-- C5: when an object named `name + "_SET"` already exists (and the
family registry is nonempty, so the lookup loop binds its variable),
`create` raises `NameError` and the scene it reports is the unchanged
input scene: the check precedes every node creation. -/
theorem create_existing_set_raises_nameError (api : ApiState) (st : Scene)
    (name family : String) (h1 : api.families ≠ [])
    (h2 : objExists st (name ++ "_SET") = true) :
    create api st name family = .error (.nameError, st) := by
  obtain ⟨item, hit⟩ := pyForBreakLookup_of_ne_nil api.families family h1
  unfold create
  rw [hit]
  unfold createAfterLookup
  simp [h2]

/-! ## C8 -/

/-- C8: with at least one registered family and an unregistered family
name, the for/break lookup leaves the last registered family bound, the
`assert item is not None` never fires, and `create` proceeds with that
family's record instead of rejecting the call. -/
theorem create_unregistered_family_uses_last (api : ApiState) (st : Scene)
    (name family : String) (h1 : api.families ≠ [])
    (h2 : family ∉ api.families.map (fun f => f.name)) :
    pyForBreakLookup api.families family = some (api.families.getLast h1) ∧
    create api st name family =
      createAfterLookup api st name family (api.families.getLast h1) := by
  have hl := pyForBreakLookup_no_match api.families family h1 h2
  exact ⟨hl, by unfold create; rw [hl]⟩

/-! ## C10 -/

/-- C10: `load` selects the version by Python list indexing: the
default `-1` selects the last element of `subset["versions"]`, and an
out-of-range index (including any index into an empty list) raises
`IndexError` with the scene unchanged, before any family loader runs. -/
theorem load_version_indexing (w : World) (api : ApiState) (asset : Asset)
    (subset : Subset) (representation : Option Representation) (st : Scene)
    (hs : subset.schema = "pyblish-mindbender:subset-1.0") :
    (∀ h : subset.versions ≠ [],
      load w api asset subset (-1) representation st =
        loadAfterVersion w api asset subset (subset.versions.getLast h)
          representation st) ∧
    (∀ i : Int, pyListGet subset.versions i = none →
      load w api asset subset i representation st = .error (.indexError, st)) := by
  constructor
  · intro h
    unfold load
    rw [if_neg (by simp [hs]), pyListGet_neg_one subset.versions h]
  · intro i hi
    unfold load
    rw [if_neg (by simp [hs]), hi]

/-! ## C6 -/

/-- The family record `install` registers for `mindbender.model`. -/
def familyModel : Family :=
  { name := "mindbender.model", help := "Polygonal geometry for animation",
    loader := some .generic, fdata := [] }

/-- The family record `install` registers for `mindbender.rig`. -/
def familyRig : Family :=
  { name := "mindbender.rig", help := "Character rig",
    loader := some .rig, fdata := [] }

/-- The family record `install` registers for `mindbender.animation`,
with the current animation range as default data. -/
def familyAnimation (st : Scene) : Family :=
  { name := "mindbender.animation", help := "Pointcache",
    loader := some .animation,
    fdata := [("startFrame", st.animationStartTime),
              ("endFrame", st.animationEndTime)] }

/-- C6: a successful `install` registers exactly the formats `.ma`,
`.mb`, `.abc` and exactly the families `mindbender.model`,
`mindbender.rig`, `mindbender.animation`, each with a loader
callback. -/
theorem install_registers_formats_and_families (b : Bool) (p : Option String)
    (st : Scene) (api api2 : ApiState) (h : install b p st api = .ok api2) :
    api2.formats = api.formats ++ [".ma", ".mb", ".abc"] ∧
    api2.families = api.families ++ [familyModel, familyRig, familyAnimation st] ∧
    ∀ f ∈ [familyModel, familyRig, familyAnimation st], f.loader.isSome := by
  unfold install at h
  split at h
  · exact absurd h (by simp)
  · match p, h with
    | none, h => exact absurd h (by simp)
    | some proj, h =>
      simp only [register_root, register_data, register_format, register_family,
        Except.ok.injEq] at h
      subst h
      refine ⟨by simp, by simp [familyModel, familyRig, familyAnimation], ?_⟩
      intro f hf
      simp only [List.mem_cons, List.mem_singleton] at hf
      rcases hf with h1 | h1 | h1 | h1
      · simp [h1, familyModel]
      · simp [h1, familyRig]
      · simp [h1, familyAnimation]
      · cases h1

/-- The empty registries before `install`. -/
def exApiEmpty : ApiState :=
  { root := none, ddata := [], formats := [], families := [] }

/-- A bare scene with an animation range of 101–200. -/
def exScene0 : Scene :=
  { nodes := [], selection := [], pluginsLoaded := [], warnings := [],
    melLog := [], animationStartTime := .float "101.0",
    animationEndTime := .float "200.0" }

theorem install_registers_formats_and_families_witness :
    ∃ api2, install true (some "/proj") exScene0 exApiEmpty = .ok api2 ∧
      api2.formats = exApiEmpty.formats ++ [".ma", ".mb", ".abc"] ∧
      api2.families =
        exApiEmpty.families ++ [familyModel, familyRig, familyAnimation exScene0] :=
  ⟨_, rfl, (install_registers_formats_and_families true (some "/proj") exScene0
      exApiEmpty _ rfl).1,
    (install_registers_formats_and_families true (some "/proj") exScene0
      exApiEmpty _ rfl).2.1⟩

/-! ## C2 -/

/-- The dispatches `load`'s family loop makes, accumulated in order:
one per registered family whose name occurs in the selected version's
families, with the generic loader substituted when the family
registered no loader. -/
theorem loadLoop_trace (w : World) (api : ApiState) (asset : Asset)
    (subset : Subset) (ver : Version) (r : Representation) :
    ∀ (fams : List Family) (st st2 : Scene) (acc tr : List Invocation),
      loadLoop w api asset subset ver r fams st acc = .ok (st2, tr) →
      tr = acc ++ (fams.filter (fun f => ver.families.contains f.name)).map
        (fun f => ⟨f.loader.getD .generic, asset, subset, ver, r⟩) := by
  intro fams
  induction fams with
  | nil =>
    intro st st2 acc tr h
    simp only [loadLoop, Except.ok.injEq, Prod.mk.injEq] at h
    simp [← h.2]
  | cons f rest ih =>
    intro st st2 acc tr h
    rw [loadLoop] at h
    by_cases hc : ver.families.contains f.name
    · rw [if_pos hc] at h
      cases hr : runLoader (f.loader.getD .generic) w api asset subset ver r st with
      | error e => rw [hr] at h; cases h
      | ok p =>
        rw [hr] at h
        have := ih _ _ _ _ h
        rw [this, List.filter_cons_of_pos (by simpa using hc), List.map_cons]
        simp
    · rw [if_neg hc] at h
      have := ih _ _ _ _ h
      rw [this, List.filter_cons_of_neg (by simpa using hc)]

/-- C2: on a successful `load`, once the version is selected, the
loaders invoked are exactly those of the registered families whose name
occurs in the selected version's `families`, each applied to
`(asset, subset, version, representation)`, with the generic loader
substituted where no loader was registered. -/
theorem load_dispatches_registered_families (w : World) (api : ApiState)
    (asset : Asset) (subset : Subset) (vIdx : Int) (ver : Version)
    (r : Representation) (st st2 : Scene) (tr : List Invocation)
    (hsel : pyListGet subset.versions vIdx = some ver)
    (h : load w api asset subset vIdx (some r) st = .ok (st2, tr)) :
    tr = (api.families.filter (fun f => ver.families.contains f.name)).map
      (fun f => ⟨f.loader.getD .generic, asset, subset, ver, r⟩) := by
  unfold load at h
  split at h
  · cases h
  · rw [hsel] at h
    unfold loadAfterVersion at h
    simpa using loadLoop_trace w api asset subset ver r api.families st st2 [] tr h

/-! ## C3 -/

/-- C3 (amended): the three loaders share the common sequence — resolve
the representation's path, reference under a fresh namespace,
containerise, query the reference node.  The generic loader is the bare
sequence with a unique asset-derived name; the rig loader is that
sequence followed by the out_SET/`mindbender.animation` post-step; the
animation loader runs the sequence with the subset's name instead, but
additionally loads the `AbcImport.mll` plug-in first and warns, before
the file reference is created, when that name already exists. -/
theorem loaders_share_core_sequence (w : World) (api : ApiState) (a : Asset)
    (s : Subset) (v : Version) (r : Representation) (st : Scene) :
    loader_generic w api a s v r st =
      loader_core chooseUniqueName preRefNone postNone w api a s v r st ∧
    loader_rig w api a s v r st =
      loader_core chooseUniqueName preRefNone postRig w api a s v r st ∧
    loader_animation w api a s v r st =
      loader_core chooseSubsetName preRefWarn postNone w api a s v r
        (cmds_loadPlugin st "AbcImport.mll") := by
  refine ⟨rfl, ?_, rfl⟩
  unfold loader_rig loader_core chooseUniqueName preRefNone postRig
  dsimp only
  cases pyFormat [("dirname", v.path), ("format", r.format)] r.path with
  | error e => rfl
  | ok fname =>
    dsimp only
    cases cmds_file w st fname (lib_unique_name st a.name ++ "_") with
    | error e => rfl
    | ok p =>
      obtain ⟨st1, nodes⟩ := p
      dsimp only
      cases containerise (lib_unique_name st a.name) nodes v st1 with
      | error e => rfl
      | ok q =>
        obtain ⟨st2, container⟩ := q
        dsimp only
        cases nodes with
        | nil => rfl
        | cons n0 tail =>
          dsimp only
          cases cmds_referenceQuery st2 n0 with
          | error e => rfl
          | ok reference =>
            dsimp only
            cases (cmds_namespaceInfo st2 (lib_unique_name st a.name ++ "_:")).find?
                (fun n => n.endsWith "out_SET") with
            | none => rfl
            | some output =>
              dsimp only
              cases create api (cmds_select_expand st2 output)
                  (lib_unique_name st a.name) "mindbender.animation" with
              | error e => rfl
              | ok p2 => rfl

/-- A world holding one Alembic file with a single root transform. -/
def cexWorld : World :=
  ⟨fun f =>
    if f = "/proj/v003/file.abc" then
      some [{ name := "root", nodeType := "transform", parent := none,
              members := [] }]
    else none⟩

def cexRep : Representation :=
  { path := "{dirname}/file{format}", format := ".abc" }

def cexVer : Version :=
  { author := "alice", time := "20170101", version := 3, source := "/src/f.ma",
    comment := none, path := "/proj/v003",
    families := ["mindbender.animation"], representations := [cexRep] }

def cexSubset : Subset :=
  { schema := "pyblish-mindbender:subset-1.0", name := "animDefault",
    versions := [cexVer] }

/-- C3, as stated, is false: the animation loader is not the common
sequence with merely a different container name — before any file
reference is created it also loads the `AbcImport.mll` plug-in (and can
warn), observable here in the resulting scene state. -/
theorem loader_animation_not_only_renamed :
    loader_animation cexWorld exApiEmpty ⟨"Ben"⟩ cexSubset cexVer cexRep exScene0 ≠
      loader_core chooseSubsetName preRefNone postNone cexWorld exApiEmpty
        ⟨"Ben"⟩ cexSubset cexVer cexRep exScene0 := by decide

/-! ## C1 -/


def applyEntry (k : String) (v : PyVal) (attrs : List (String × Attr)) :
    List (String × Attr) :=
  (attrs ++ [(k, Attr.string "")]).map
    (fun kv => if kv.1 = k then (k, .string (pyToString v)) else kv)

def applyData : List (String × Attr) → List (String × PyVal) → List (String × Attr)
  | attrs, [] => attrs
  | attrs, (k, v) :: rest =>
    if pyTruthy v then applyData (applyEntry k v attrs) rest
    else applyData attrs rest

theorem cmds_setAttrString_addAttr (st : Scene) (c k : String) (v : PyVal) :
    cmds_setAttrString (cmds_addAttr st c k) c k v =
      { st with nodes := st.nodes.map (fun nd =>
          if nd.name = c then { nd with attrs := applyEntry k v nd.attrs }
          else nd) } := by
  unfold cmds_setAttrString cmds_addAttr updateNode
  simp only [List.map_map]
  congr 1
  apply List.map_congr_left
  intro nd _
  simp only [Function.comp_apply]
  by_cases h : nd.name = c
  · simp only [if_pos h]
    rfl
  · simp only [if_neg h]

theorem containeriseAttrLoop_eq (c : String) :
    ∀ (data : List (String × PyVal)) (st : Scene),
      containeriseAttrLoop st c data =
        { st with nodes := st.nodes.map (fun nd =>
            if nd.name = c then { nd with attrs := applyData nd.attrs data }
            else nd) } := by
  intro data
  induction data with
  | nil =>
    intro st
    rw [containeriseAttrLoop]
    have hid : (fun nd : Node =>
        if nd.name = c then { nd with attrs := applyData nd.attrs [] } else nd) =
        id := by
      funext nd
      by_cases h : nd.name = c
      · rw [if_pos h]
        rfl
      · rw [if_neg h]
        rfl
    rw [hid, List.map_id]
  | cons kv rest ih =>
    intro st
    obtain ⟨k, v⟩ := kv
    rw [containeriseAttrLoop]
    by_cases ht : pyTruthy v
    · rw [if_pos ht, cmds_setAttrString_addAttr, ih]
      simp only [List.map_map]
      congr 1
      apply List.map_congr_left
      intro nd _
      simp only [Function.comp_apply]
      by_cases h : nd.name = c
      · simp only [if_pos h]
        have : applyData nd.attrs ((k, v) :: rest) =
            applyData (applyEntry k v nd.attrs) rest := by
          rw [applyData, if_pos ht]
        rw [this]
      · simp only [if_neg h]
    · rw [if_neg ht, ih]
      congr 1
      apply List.map_congr_left
      intro nd _
      by_cases h : nd.name = c
      · simp only [if_pos h]
        have : applyData nd.attrs ((k, v) :: rest) = applyData nd.attrs rest := by
          rw [applyData, if_neg ht]
        rw [this]
      · simp only [if_neg h]

theorem applyEntry_of_fresh (k : String) (v : PyVal)
    (attrs : List (String × Attr)) (hk : ∀ kv ∈ attrs, kv.1 ≠ k) :
    applyEntry k v attrs = attrs ++ [(k, Attr.string (pyToString v))] := by
  unfold applyEntry
  rw [List.map_append]
  congr 1
  · conv_rhs => rw [← List.map_id attrs]
    apply List.map_congr_left
    intro kv hkv
    simp [hk kv hkv]
  · simp

theorem applyData_append_of_fresh :
    ∀ (data : List (String × PyVal)) (attrs : List (String × Attr)),
      (∀ kv ∈ attrs, ∀ kv2 ∈ data, kv.1 ≠ kv2.1) →
      (data.map Prod.fst).Nodup →
      applyData attrs data =
        attrs ++ (data.filter (fun kv => pyTruthy kv.2)).map
          (fun kv => (kv.1, Attr.string (pyToString kv.2))) := by
  intro data
  induction data with
  | nil => intro attrs _ _; simp [applyData]
  | cons kv rest ih =>
    intro attrs hfresh hnodup
    obtain ⟨k, v⟩ := kv
    rw [applyData]
    simp only [List.map_cons, List.nodup_cons] at hnodup
    by_cases ht : pyTruthy v
    · rw [if_pos ht,
        applyEntry_of_fresh k v attrs (fun kv hkv => hfresh kv hkv (k, v) (by simp))]
      have hfresh2 : ∀ kv ∈ attrs ++ [(k, Attr.string (pyToString v))],
          ∀ kv2 ∈ rest, kv.1 ≠ kv2.1 := by
        intro kv hkv kv2 hkv2
        rcases List.mem_append.mp hkv with hkv | hkv
        · exact hfresh kv hkv kv2 (List.mem_cons_of_mem _ hkv2)
        · simp only [List.mem_singleton] at hkv
          subst hkv
          dsimp only
          intro hc
          apply hnodup.1
          rw [hc]
          exact List.mem_map_of_mem Prod.fst hkv2
      rw [ih (attrs ++ [(k, Attr.string (pyToString v))]) hfresh2 hnodup.2]
      rw [List.filter_cons_of_pos (by simpa using ht)]
      simp
    · rw [if_neg ht, ih attrs
          (fun kv hkv kv2 hkv2 => hfresh kv hkv kv2 (List.mem_cons_of_mem _ hkv2))
          hnodup.2,
        List.filter_cons_of_neg (by simpa using ht)]

theorem applyData_mem :
    ∀ (data : List (String × PyVal)) (attrs : List (String × Attr))
      (kv : String × Attr), kv ∈ applyData attrs data →
      kv ∈ attrs ∨ ∃ s, kv.2 = Attr.string s := by
  intro data
  induction data with
  | nil => intro attrs kv h; exact Or.inl h
  | cons e rest ih =>
    intro attrs kv h
    obtain ⟨k, v⟩ := e
    rw [applyData] at h
    by_cases ht : pyTruthy v
    · rw [if_pos ht] at h
      rcases ih _ kv h with hmem | hs
      · unfold applyEntry at hmem
        rcases List.mem_map.mp hmem with ⟨kv0, hkv0, heq⟩
        by_cases hk : kv0.1 = k
        · right
          rw [← heq]
          simp [hk]
        · rcases List.mem_append.mp hkv0 with h0 | h0
          · left
            rw [← heq, if_neg hk]
            exact h0
          · simp only [List.mem_singleton] at h0
            rw [h0] at hk
            exact absurd rfl hk
      · exact Or.inr hs
    · rw [if_neg ht] at h
      exact ih _ kv h

/-- C1 (amended): a successful `containerise(name, nodes, version)`
returns a single newly appended group node (a transform, named by the
host's uniquified `name`), reparents the assemblies among the given
nodes under it, and tags it with string attributes for exactly the
truthy entries of the metadata list (id, author, loader, time, version,
source, comment) — falsy values, such as an empty author or a version
number 0, are skipped by the `if not value: continue` guard. -/
theorem containerise_builds_tagged_group (name : String) (nodes : List String)
    (v : Version) (st st2 : Scene) (c : String)
    (h : containerise name nodes v st = .ok (st2, c)) :
    c = mayaUniquify st name ∧
    st2.nodes.length = st.nodes.length + 1 ∧
    (∃ g, st2.nodes.getLast? = some g ∧ g.name = c ∧
      g.nodeType = "transform" ∧ g.parent = none ∧
      g.attrs = ((containerData v).filter (fun kv => pyTruthy kv.2)).map
        (fun kv => (kv.1, Attr.string (pyToString kv.2)))) ∧
    ∀ a ∈ cmds_ls_assemblies st nodes, ∃ nd ∈ st2.nodes,
      nd.name = a ∧ nd.parent = some c := by
  unfold containerise cmds_group at h
  dsimp only at h
  by_cases hassem : (cmds_ls_assemblies st nodes).isEmpty
  · rw [if_pos hassem] at h
    cases h
  · rw [if_neg hassem] at h
    dsimp only at h
    rw [containeriseAttrLoop_eq] at h
    simp only [Except.ok.injEq, Prod.mk.injEq] at h
    obtain ⟨hst, hc⟩ := h
    subst hst
    subst hc
    refine ⟨rfl, ?_, ?_, ?_⟩
    · simp
    · refine ⟨⟨mayaUniquify st name, "transform", none, [],
        applyData [] (containerData v), none⟩, ?_, rfl, rfl, rfl, ?_⟩
      · dsimp only
        rw [List.map_append, List.map_map]
        simp only [List.map_cons, List.map_nil]
        rw [List.getLast?_concat]
        simp only [if_true]
      · dsimp only
        rw [applyData_append_of_fresh (containerData v) [] (by intro kv hkv; cases hkv)
          (by simp [containerData])]
        simp
    · intro a ha
      rcases List.mem_map.mp ha with ⟨nd, hnd, hname⟩
      have hcontains : (cmds_ls_assemblies st nodes).contains nd.name := by
        rw [← hname] at ha
        exact List.elem_eq_true_of_mem ha
      refine ⟨(fun nd : Node => if nd.name = mayaUniquify st name then
          { nd with attrs := applyData nd.attrs (containerData v) } else nd)
          ((fun nd : Node =>
            if (cmds_ls_assemblies st nodes).contains nd.name = true then
              { nd with parent := some (mayaUniquify st name) } else nd) nd),
          ?_, ?_, ?_⟩
      · dsimp only
        apply List.mem_map_of_mem
        apply List.mem_append_left
        exact List.mem_map_of_mem _ (List.mem_of_mem_filter hnd)
      · simp only [if_pos hcontains]
        by_cases hg : nd.name = mayaUniquify st name
        · simp only [if_pos hg]
          exact hname
        · simp only [if_neg hg]
          exact hname
      · simp only [if_pos hcontains]
        by_cases hg : nd.name = mayaUniquify st name
        · simp only [if_pos hg]
        · simp only [if_neg hg]

theorem resolveLoop_mem (env : List (String × String)) :
    ∀ (data : List (String × PyVal)) (res : List (String × String)),
      resolveLoop env data = .ok res →
      ∀ kv ∈ res, ∃ v0, pyFormat env (pyToString v0) = .ok kv.2 := by
  intro data
  induction data with
  | nil =>
    intro res h kv hkv
    simp only [resolveLoop, Except.ok.injEq] at h
    subst h
    cases hkv
  | cons e rest ih =>
    intro res h kv hkv
    obtain ⟨k, v⟩ := e
    rw [resolveLoop] at h
    cases hpf : pyFormat env (pyToString v) with
    | error er => rw [hpf] at h; cases h
    | ok s =>
      rw [hpf] at h
      cases hrec : resolveLoop env rest with
      | error er => rw [hrec] at h; cases h
      | ok res2 =>
        rw [hrec] at h
        simp only [Except.map, Except.ok.injEq] at h
        subst h
        rcases List.mem_cons.mp hkv with hkv | hkv
        · subst hkv
          exact ⟨v, hpf⟩
        · exact ih res2 hrec kv hkv

theorem create_metadata_strings (api : ApiState) (st0 st0f : Scene)
    (nm fam inst : String) (h2 : create api st0 nm fam = .ok (st0f, inst)) :
    ∀ nd2 ∈ st0f.nodes, ∀ kv ∈ nd2.attrs,
      (∃ nd ∈ st0.nodes, nd.name = nd2.name ∧ kv ∈ nd.attrs) ∨
      ∃ s v0, kv.2 = Attr.string s ∧
        pyFormat [("name", nm), ("family", fam)] (pyToString v0) = .ok s := by
  unfold create at h2
  cases hlk : pyForBreakLookup api.families fam with
  | none => rw [hlk] at h2; cases h2
  | some item =>
    rw [hlk] at h2
    unfold createAfterLookup at h2
    dsimp only at h2
    by_cases hex : objExists st0 (nm ++ "_SET")
    · rw [if_pos hex] at h2
      cases h2
    · rw [if_neg hex] at h2
      dsimp only [cmds_sets] at h2
      cases hres : resolveLoop [("name", nm), ("family", fam)]
          (pyDictOf (api.ddata ++ item.fdata)) with
      | error er => rw [hres] at h2; cases h2
      | ok res =>
        rw [hres] at h2
        dsimp only [lib_imprint, updateNode, cmds_select_noExpand] at h2
        simp only [Except.ok.injEq, Prod.mk.injEq] at h2
        obtain ⟨hst, hinst⟩ := h2
        subst hst
        intro nd2 hm kv hkv
        dsimp only at hm
        rcases List.mem_map.mp hm with ⟨nd1, hnd1, rfl⟩
        rcases List.mem_append.mp hnd1 with hold | hnew
        · by_cases hname : nd1.name = mayaUniquify st0 (nm ++ "_SET")
          · simp only [if_pos hname] at hkv ⊢
            rcases List.mem_append.mp hkv with hkva | hkvb
            · exact Or.inl ⟨nd1, hold, rfl, hkva⟩
            · rcases List.mem_map.mp hkvb with ⟨p, hp, hpe⟩
              right
              refine ⟨p.2, ?_⟩
              obtain ⟨v0, hv0⟩ := resolveLoop_mem _ _ _ hres p hp
              exact ⟨v0, by rw [← hpe], hv0⟩
          · simp only [if_neg hname] at hkv ⊢
            exact Or.inl ⟨nd1, hold, rfl, hkv⟩
        · simp only [List.mem_singleton] at hnew
          subst hnew
          by_cases hname : (mayaUniquify st0 (nm ++ "_SET")) = mayaUniquify st0 (nm ++ "_SET")
          · simp only [if_pos hname] at hkv
            rcases List.mem_append.mp hkv with hkva | hkvb
            · cases hkva
            · rcases List.mem_map.mp hkvb with ⟨p, hp, hpe⟩
              right
              refine ⟨p.2, ?_⟩
              obtain ⟨v0, hv0⟩ := resolveLoop_mem _ _ _ hres p hp
              exact ⟨v0, by rw [← hpe], hv0⟩
          · exact absurd rfl hname

theorem containerise_metadata_strings (name : String) (nodes : List String)
    (v : Version) (st stc : Scene) (c : String)
    (h1 : containerise name nodes v st = .ok (stc, c)) :
    ∀ nd2 ∈ stc.nodes, ∀ kv ∈ nd2.attrs,
      (∃ nd ∈ st.nodes, nd.name = nd2.name ∧ kv ∈ nd.attrs) ∨
      ∃ s, kv.2 = Attr.string s := by
  unfold containerise cmds_group at h1
  dsimp only at h1
  by_cases hassem : (cmds_ls_assemblies st nodes).isEmpty
  · rw [if_pos hassem] at h1
    cases h1
  · rw [if_neg hassem] at h1
    dsimp only at h1
    rw [containeriseAttrLoop_eq] at h1
    simp only [Except.ok.injEq, Prod.mk.injEq] at h1
    obtain ⟨hst, hc⟩ := h1
    subst hst
    intro nd2 hm kv hkv
    dsimp only at hm
    rcases List.mem_map.mp hm with ⟨nd1, hnd1, rfl⟩
    rcases List.mem_append.mp hnd1 with hold | hnew
    · rcases List.mem_map.mp hold with ⟨ndo, hndo, rfl⟩
      by_cases hcont : (cmds_ls_assemblies st nodes).contains ndo.name
      · simp only [if_pos hcont] at hkv ⊢
        by_cases hname : ndo.name = mayaUniquify st name
        · simp only [if_pos hname] at hkv ⊢
          rcases applyData_mem (containerData v) _ kv hkv with hmem | hs
          · exact Or.inl ⟨ndo, hndo, rfl, hmem⟩
          · exact Or.inr hs
        · simp only [if_neg hname] at hkv ⊢
          exact Or.inl ⟨ndo, hndo, rfl, hkv⟩
      · simp only [if_neg hcont] at hkv ⊢
        by_cases hname : ndo.name = mayaUniquify st name
        · simp only [if_pos hname] at hkv ⊢
          rcases applyData_mem (containerData v) _ kv hkv with hmem | hs
          · exact Or.inl ⟨ndo, hndo, rfl, hmem⟩
          · exact Or.inr hs
        · simp only [if_neg hname] at hkv ⊢
          exact Or.inl ⟨ndo, hndo, rfl, hkv⟩
    · simp only [List.mem_singleton] at hnew
      subst hnew
      simp only [if_pos rfl] at hkv
      rcases applyData_mem (containerData v) _ kv hkv with hmem | hs
      · cases hmem
      · exact Or.inr hs

theorem lsLoop_mem (st : Scene) :
    ∀ (names : List String) (r : CRecord), r ∈ (lsLoop st names).1 →
      r.schema = "pyblish-mindbender:container-1.0" ∧ r.path ∈ names ∧
      r.rdata = lib_read st r.path ∧ schema_validate_container r = true := by
  intro names
  induction names with
  | nil =>
    intro r h
    simp only [lsLoop] at h
    cases h
  | cons cpath rest ih =>
    intro r h
    rw [lsLoop] at h
    by_cases hv : schema_validate_container
        { schema := "pyblish-mindbender:container-1.0", path := cpath,
          rdata := lib_read st cpath }
    · rw [if_pos hv] at h
      dsimp only at h
      rcases List.mem_cons.mp h with hr | hr
      · subst hr
        exact ⟨rfl, List.mem_cons_self cpath rest, rfl, hv⟩
      · obtain ⟨hschema, hpath, hrdata, hval⟩ := ih r hr
        exact ⟨hschema, List.mem_cons_of_mem _ hpath, hrdata, hval⟩
    · rw [if_neg hv] at h
      cases h

/-- C4: every record yielded by `ls` carries the schema
`pyblish-mindbender:container-1.0`, the long scene path of a transform
node bearing an `id` attribute, the metadata read back from that node,
and passes validation against the `container` schema (the loop stops
yielding at the first validation failure). -/
theorem ls_yields_validated_container_records (st : Scene) (r : CRecord)
    (h : r ∈ (ls st).1) :
    r.schema = "pyblish-mindbender:container-1.0" ∧
    (∃ nd ∈ st.nodes, nd.nodeType = "transform" ∧
      nd.attrs.any (fun kv => kv.1 = "id") ∧ r.path = longName st nd ∧
      r.rdata = lib_read st (longName st nd)) ∧
    schema_validate_container r = true := by
  obtain ⟨hschema, hpath, hrdata, hval⟩ := lsLoop_mem st (lsIdTransformNames st) r h
  refine ⟨hschema, ?_, hval⟩
  unfold lsIdTransformNames at hpath
  rcases List.mem_map.mp hpath with ⟨nd, hnd, hln⟩
  have hf := List.mem_filter.mp hnd
  have hpred := hf.2
  simp only [Bool.and_eq_true, decide_eq_true_eq] at hpred
  refine ⟨nd, hf.1, hpred.1, ?_, ?_, ?_⟩
  · exact hpred.2
  · exact hln.symm
  · rw [hln]
    exact hrdata


/-! ## C7 -/

/-- C7: all metadata the module writes maps string keys to string
values.  Every attribute a successful `containerise` adds (beyond those
already on a node of the input scene) is a string attribute, and every
attribute a successful `create` imprints is a string attribute whose
value is the `str`-conversion of some data value passed through
`.format(name=..., family=...)`. -/
theorem written_metadata_is_string_valued (name : String) (nodes : List String)
    (v : Version) (st stc : Scene) (c : String) (api : ApiState)
    (st0 st0f : Scene) (nm fam inst : String)
    (h1 : containerise name nodes v st = .ok (stc, c))
    (h2 : create api st0 nm fam = .ok (st0f, inst)) :
    (∀ nd2 ∈ stc.nodes, ∀ kv ∈ nd2.attrs,
      (∃ nd ∈ st.nodes, nd.name = nd2.name ∧ kv ∈ nd.attrs) ∨
      ∃ s, kv.2 = Attr.string s) ∧
    (∀ nd2 ∈ st0f.nodes, ∀ kv ∈ nd2.attrs,
      (∃ nd ∈ st0.nodes, nd.name = nd2.name ∧ kv ∈ nd.attrs) ∨
      ∃ s v0, kv.2 = Attr.string s ∧
        pyFormat [("name", nm), ("family", fam)] (pyToString v0) = .ok s) :=
  ⟨containerise_metadata_strings name nodes v st stc c h1,
   create_metadata_strings api st0 st0f nm fam inst h2⟩

/-! ## Concrete inputs for witnesses and counterexamples -/

/-- A scene holding a single top-level transform `geo`. -/
def exSceneGeo : Scene :=
  { nodes := [{ name := "geo", nodeType := "transform", parent := none,
                members := [], attrs := [], refNode := none }],
    selection := [], pluginsLoaded := [], warnings := [], melLog := [],
    animationStartTime := .float "101.0", animationEndTime := .float "200.0" }

/-- A scene already holding an object named `Ben_SET`. -/
def exSceneSet : Scene :=
  { nodes := [{ name := "Ben_SET", nodeType := "objectSet", parent := none,
                members := [], attrs := [], refNode := none }],
    selection := [], pluginsLoaded := [], warnings := [], melLog := [],
    animationStartTime := .float "101.0", animationEndTime := .float "200.0" }

/-- A registry holding one family. -/
def exApi1 : ApiState :=
  { root := none, ddata := [], formats := [".ma"], families := [familyModel] }

/-- A registry whose single family registered no loader. -/
def exApi2 : ApiState :=
  { root := none, ddata := [], formats := [".abc"],
    families := [{ name := "mindbender.animation", help := "Pointcache",
                   loader := none, fdata := [] }] }

/-- A version record whose version number is 0 (falsy in Python). -/
def cexVerZero : Version :=
  { author := "alice", time := "20170101", version := 0, source := "/src/f.ma",
    comment := some "approved", path := "/proj/v000", families := [],
    representations := [] }

/-! ## Witnesses and counterexamples -/

/-- C1, as stated, is false: here the version record's `author` is
tagged onto the container but its `version` (the number 0, falsy) is
not, although the claim promises both. -/
theorem containerise_version_zero_not_tagged :
    (containerise "grp" ["geo"] cexVerZero exSceneGeo).map
      (fun p => p.1.nodes.getLast?.map
        (fun g => (g.attrs.lookup "author", g.attrs.lookup "version"))) =
    .ok (some (some (Attr.string "alice"), none)) := by decide

theorem containerise_builds_tagged_group_witness :
    ∃ st2 c, containerise "grp" ["geo"] cexVer exSceneGeo = .ok (st2, c) ∧
      (c = mayaUniquify exSceneGeo "grp" ∧
       st2.nodes.length = exSceneGeo.nodes.length + 1 ∧
       (∃ g, st2.nodes.getLast? = some g ∧ g.name = c ∧
         g.nodeType = "transform" ∧ g.parent = none ∧
         g.attrs = ((containerData cexVer).filter (fun kv => pyTruthy kv.2)).map
           (fun kv => (kv.1, Attr.string (pyToString kv.2)))) ∧
       ∀ a ∈ cmds_ls_assemblies exSceneGeo ["geo"], ∃ nd ∈ st2.nodes,
         nd.name = a ∧ nd.parent = some c) :=
  ⟨_, _, rfl,
    containerise_builds_tagged_group "grp" ["geo"] cexVer exSceneGeo _ _ rfl⟩

theorem load_dispatches_registered_families_witness :
    pyListGet cexSubset.versions 0 = some cexVer ∧
    ∃ st2 tr, load cexWorld exApi2 ⟨"Ben"⟩ cexSubset 0 (some cexRep) exScene0 =
        .ok (st2, tr) ∧
      tr = (exApi2.families.filter
          (fun f => cexVer.families.contains f.name)).map
        (fun f => ⟨f.loader.getD .generic, ⟨"Ben"⟩, cexSubset, cexVer, cexRep⟩) :=
  ⟨by decide, _, _, rfl,
    load_dispatches_registered_families cexWorld exApi2 ⟨"Ben"⟩ cexSubset 0
      cexVer cexRep exScene0 _ _ (by decide) rfl⟩

/-- The scene produced by containerising `geo` under `grp` with
`cexVer`'s metadata. -/
def exSceneC : Scene :=
  { nodes :=
      [{ name := "geo", nodeType := "transform", parent := some "grp",
         members := [], attrs := [], refNode := none },
       { name := "grp", nodeType := "transform", parent := none, members := [],
         attrs := [("id", .string "pyblish.mindbender.container"),
                   ("author", .string "alice"),
                   ("loader", .string "mindbender.maya.pipeline"),
                   ("time", .string "20170101"),
                   ("version", .string "3"),
                   ("source", .string "/src/f.ma")],
         refNode := none }],
    selection := [], pluginsLoaded := [], warnings := [], melLog := [],
    animationStartTime := .float "101.0", animationEndTime := .float "200.0" }

/-- The container record `ls` yields on `exSceneC`. -/
def exRecord : CRecord :=
  { schema := "pyblish-mindbender:container-1.0", path := "|grp",
    rdata := [("id", "pyblish.mindbender.container"), ("author", "alice"),
              ("loader", "mindbender.maya.pipeline"), ("time", "20170101"),
              ("version", "3"), ("source", "/src/f.ma")] }

theorem ls_yields_validated_container_records_witness :
    exRecord ∈ (ls exSceneC).1 ∧
    (exRecord.schema = "pyblish-mindbender:container-1.0" ∧
     (∃ nd ∈ exSceneC.nodes, nd.nodeType = "transform" ∧
       nd.attrs.any (fun kv => kv.1 = "id") ∧
       exRecord.path = longName exSceneC nd ∧
       exRecord.rdata = lib_read exSceneC (longName exSceneC nd)) ∧
     schema_validate_container exRecord = true) :=
  ⟨by decide, ls_yields_validated_container_records exSceneC exRecord (by decide)⟩

theorem create_existing_set_raises_nameError_witness :
    exApi1.families ≠ [] ∧ objExists exSceneSet ("Ben" ++ "_SET") = true ∧
    create exApi1 exSceneSet "Ben" "mindbender.model" =
      .error (.nameError, exSceneSet) :=
  ⟨by decide, by decide,
    create_existing_set_raises_nameError exApi1 exSceneSet "Ben"
      "mindbender.model" (by decide) (by decide)⟩

theorem create_unregistered_family_uses_last_witness :
    exApi1.families ≠ [] ∧ "bogus" ∉ exApi1.families.map (fun f => f.name) ∧
    (pyForBreakLookup exApi1.families "bogus" =
        some (exApi1.families.getLast (by decide)) ∧
      create exApi1 exScene0 "Ben" "bogus" =
        createAfterLookup exApi1 exScene0 "Ben" "bogus"
          (exApi1.families.getLast (by decide))) :=
  ⟨by decide, by decide,
    create_unregistered_family_uses_last exApi1 exScene0 "Ben" "bogus"
      (by decide) (by decide)⟩

theorem written_metadata_is_string_valued_witness :
    ∃ stc c st0f inst,
      containerise "grp" ["geo"] cexVer exSceneGeo = .ok (stc, c) ∧
      create exApi1 exScene0 "Ben" "mindbender.model" = .ok (st0f, inst) ∧
      (∀ nd2 ∈ stc.nodes, ∀ kv ∈ nd2.attrs,
        (∃ nd ∈ exSceneGeo.nodes, nd.name = nd2.name ∧ kv ∈ nd.attrs) ∨
        ∃ s, kv.2 = Attr.string s) ∧
      (∀ nd2 ∈ st0f.nodes, ∀ kv ∈ nd2.attrs,
        (∃ nd ∈ exScene0.nodes, nd.name = nd2.name ∧ kv ∈ nd.attrs) ∨
        ∃ s v0, kv.2 = Attr.string s ∧
          pyFormat [("name", "Ben"), ("family", "mindbender.model")]
            (pyToString v0) = .ok s) :=
  ⟨_, _, _, _, rfl, rfl,
    (written_metadata_is_string_valued "grp" ["geo"] cexVer exSceneGeo _ _
      exApi1 exScene0 _ "Ben" "mindbender.model" _ rfl rfl).1,
    (written_metadata_is_string_valued "grp" ["geo"] cexVer exSceneGeo _ _
      exApi1 exScene0 _ "Ben" "mindbender.model" _ rfl rfl).2⟩

theorem load_version_indexing_witness :
    cexSubset.schema = "pyblish-mindbender:subset-1.0" ∧
    load cexWorld exApi2 ⟨"Ben"⟩ cexSubset (-1) (some cexRep) exScene0 =
      loadAfterVersion cexWorld exApi2 ⟨"Ben"⟩ cexSubset
        (cexSubset.versions.getLast (by decide)) (some cexRep) exScene0 ∧
    load cexWorld exApi2 ⟨"Ben"⟩ cexSubset 5 (some cexRep) exScene0 =
      .error (.indexError, exScene0) :=
  ⟨rfl,
    (load_version_indexing cexWorld exApi2 ⟨"Ben"⟩ cexSubset (some cexRep)
      exScene0 rfl).1 (by decide),
    (load_version_indexing cexWorld exApi2 ⟨"Ben"⟩ cexSubset (some cexRep)
      exScene0 rfl).2 5 (by decide)⟩

end Mindbender
